import Mathlib

/-!
Verification development for the rag-app repository (document ingestion and
retrieval pipeline). Text is modelled as `List Char`; machine strings that are
only compared for equality (user ids, document ids, content types) stay as
`String`. External collaborators (the Qdrant vector database, the embedding
and generation services, the web crawler fetch) are modelled through the
abstract insert/search/delete/scroll interface the code calls, with the
filters the code builds passed through explicitly.
-/

set_option autoImplicit false

namespace RagApp

/-- Character sequences: the model of JavaScript strings used as text. -/
abbrev Chars := List Char

/-- Newline character (written by code point to keep literals simple). -/
def nlChar : Char := Char.ofNat 10

/-- Tab character. -/
def tabChar : Char := Char.ofNat 9

/-- Carriage-return character. -/
def crChar : Char := Char.ofNat 13

/-- Apostrophe character (code point 39). -/
def aposChar : Char := Char.ofNat 39

/-- Whitespace predicate backing the model of JavaScript `String.trim`
(space, tab, newline, carriage return). -/
def isWsChar (c : Char) : Bool :=
  c == ' ' || c == nlChar || c == tabChar || c == crChar

/-- Model of JavaScript `String.trim`: drop whitespace from both ends. -/
def trimChars (l : Chars) : Chars :=
  ((l.dropWhile isWsChar).reverse.dropWhile isWsChar).reverse

/-- Model of JavaScript `String.includes`: `containsSub needle hay` is true
iff `needle` occurs contiguously in `hay`. -/
def containsSub (needle : Chars) : Chars → Bool
  | [] => needle.isEmpty
  | c :: rest => needle.isPrefixOf (c :: rest) || containsSub needle rest

/-- Lowercasing of a character sequence; model of `String.toLowerCase` for
the ASCII text the code compares. -/
def lowerChars (l : Chars) : Chars := l.map Char.toLower

/-!
### Chunker

`@langchain/textsplitters` `RecursiveCharacterTextSplitter`, as configured in
`src/lib/document-processor.ts`:

  `new RecursiveCharacterTextSplitter({ chunkSize: 1000, chunkOverlap: 100 })`

so `separators = ["\n\n", "\n", " ", ""]` and `keepSeparator = true` (the
library defaults). With `keepSeparator = true` the library splits with a
zero-width lookahead (each occurrence of the separator starts a new piece)
and merges pieces with the empty join separator.
-/

/-- The configured chunk size (characters). -/
def chunkSize : Nat := 1000

/-- The configured chunk overlap (characters). -/
def chunkOverlap : Nat := 100

/-- Lookahead split: break `l` before every occurrence of `sep` (a zero-width
match at position 0 starts no new piece). `acc` holds the current piece
reversed. Model of `text.split(new RegExp("(?=" + escaped + ")"))`. -/
def splitKeepSepAux (sep : Chars) : Chars → Chars → List Chars
  | acc, [] => [acc.reverse]
  | acc, c :: rest =>
    if sep.isPrefixOf (c :: rest) && !acc.isEmpty then
      acc.reverse :: splitKeepSepAux sep [c] rest
    else
      splitKeepSepAux sep (c :: acc) rest

/-- Lookahead split of `l` on `sep`, empty pieces removed (the library runs
`splits.filter(s => s !== "")`). -/
def splitKeepSep (sep : Chars) (l : Chars) : List Chars :=
  (splitKeepSepAux sep [] l).filter (fun p => !p.isEmpty)

/-- `splitOnSeparator` of the library with `keepSeparator = true`: a truthy
separator uses the lookahead split; the empty separator splits into single
characters (`text.split("")`). -/
def splitOnSeparator (sep : Chars) (text : Chars) : List Chars :=
  if sep.isEmpty then
    (text.map (fun c => [c])).filter (fun p => !p.isEmpty)
  else
    splitKeepSep sep text

/-- JavaScript `docs.join(separator)`: interleave `sep` between the pieces. -/
def intercalateChars (sep : Chars) (docs : List Chars) : Chars :=
  (docs.intersperse sep).flatten

/-- `joinDocs` of the library: join then trim, returning `none` for the empty
result (the `null` the library checks for). -/
def joinDocs (docs : List Chars) (sep : Chars) : Option Chars :=
  let text := trimChars (intercalateChars sep docs)
  if text.isEmpty then none else some text

/-- Total length of a list of pieces. -/
def sumLen (l : List Chars) : Nat := (l.map List.length).sum

/-- The `while` loop of `mergeSplits` that pops pieces from the front of
`currentDoc` until the running total is within the overlap budget.
`dLen` is the length of the incoming piece. -/
def popOverlap (sepLen dLen : Nat) : List Chars → Nat → List Chars × Nat
  | [], total => ([], total)
  | d :: rest, total =>
    if total > chunkOverlap ||
        (total + dLen + (d :: rest).length * sepLen > chunkSize && total > 0) then
      popOverlap sepLen dLen rest (total - d.length)
    else (d :: rest, total)

/-- State of the `mergeSplits` loop: emitted chunks, pieces of the chunk
under construction, and the total piece length of the latter. -/
structure MergeState where
  docs : List Chars
  currentDoc : List Chars
  total : Nat
deriving DecidableEq, Repr

/-- Append the joined-and-trimmed current chunk, if non-null. -/
def pushJoined (docs : List Chars) (currentDoc : List Chars) (sep : Chars) : List Chars :=
  match joinDocs currentDoc sep with
  | some doc => docs ++ [doc]
  | none => docs

/-- One iteration of the `mergeSplits` loop body for incoming piece `d`:
when the prospective join would exceed `chunkSize` and a chunk is under
construction, flush it and pop the overlap; in every case the piece is then
appended and the total grows by its length. -/
def mergeStep (sep : Chars) (st : MergeState) (d : Chars) : MergeState :=
  if st.total + d.length + st.currentDoc.length * sep.length > chunkSize then
    if st.currentDoc.length > 0 then
      MergeState.mk (pushJoined st.docs st.currentDoc sep)
        ((popOverlap sep.length d.length st.currentDoc st.total).1 ++ [d])
        ((popOverlap sep.length d.length st.currentDoc st.total).2 + d.length)
    else MergeState.mk st.docs (st.currentDoc ++ [d]) (st.total + d.length)
  else MergeState.mk st.docs (st.currentDoc ++ [d]) (st.total + d.length)

/-- `mergeSplits` of the library: fold the loop body over the pieces, then
flush the final chunk. -/
def mergeSplits (splits : List Chars) (sep : Chars) : List Chars :=
  let st := List.foldl (mergeStep sep) (MergeState.mk [] [] 0) splits
  pushJoined st.docs st.currentDoc sep

/-- A piece of the `_splitText` loop: either a short split collected into the
`goodSplits` buffer (`Sum.inl`), or the chunk list produced for a split of
length at least `chunkSize` (`Sum.inr`). -/
def buildPieces (recFn : Option (Chars → List Chars)) : List Chars → List (Chars ⊕ List Chars)
  | [] => []
  | p :: ps =>
    (if p.length < chunkSize then Sum.inl p
     else match recFn with
       | none => Sum.inr [p]
       | some f => Sum.inr (f p)) :: buildPieces recFn ps

/-- Replay of the `_splitText` loop over the precomputed pieces: buffered
short splits are merged (with the empty join separator, since
`keepSeparator = true`) whenever a long split intervenes and at the end. -/
def assembleGo (good : List Chars) : List (Chars ⊕ List Chars) → List Chars
  | [] => if good.isEmpty then [] else mergeSplits good []
  | Sum.inl s :: rest => assembleGo (good ++ [s]) rest
  | Sum.inr chunks :: rest =>
    (if good.isEmpty then [] else mergeSplits good []) ++ chunks ++ assembleGo [] rest

/-- The `_splitText` loop for one chosen separator: `recFn` is the recursive
call with the remaining separators (`none` models `newSeparators` being
undefined). -/
def processSplits (recFn : Option (Chars → List Chars)) (splits : List Chars) : List Chars :=
  assembleGo [] (buildPieces recFn splits)

/-- `_splitText` at the last separator `""`: character split, no further
recursion. -/
def splitLevel3 (text : Chars) : List Chars :=
  processSplits none (splitOnSeparator [] text)

/-- `_splitText` with separators `[" ", ""]`: the scan picks `" "` when it
occurs in the text, else falls through to `""`. -/
def splitLevel2 (text : Chars) : List Chars :=
  if containsSub [' '] text then
    processSplits (some splitLevel3) (splitOnSeparator [' '] text)
  else splitLevel3 text

/-- `_splitText` with separators `["\n", " ", ""]`. -/
def splitLevel1 (text : Chars) : List Chars :=
  if containsSub [nlChar] text then
    processSplits (some splitLevel2) (splitOnSeparator [nlChar] text)
  else splitLevel2 text

/-- `splitText` of the configured splitter: `_splitText` with the default
separators `["\n\n", "\n", " ", ""]`, specialised level by level (the scan
always stops no later than the final `""`). -/
def splitText (text : Chars) : List Chars :=
  if containsSub [nlChar, nlChar] text then
    processSplits (some splitLevel1) (splitOnSeparator [nlChar, nlChar] text)
  else splitLevel1 text

/-- `splitDocumentIntoChunks` of `document-processor.ts` restricted to chunk
contents: wraps the text in a document and runs the configured splitter
(`createDocuments` copies each chunk verbatim into `pageContent`). -/
def splitDocumentIntoChunks (content : Chars) : List Chars :=
  splitText content

/-- Modelled from the spec: the reconstruction operation of the chunk-coverage
property, "concatenating the resulting chunks while removing the declared
overlap" — the first chunk followed by every later chunk with its first
`chunkOverlap` (100) characters dropped. -/
def specReconstruct (chunks : List Chars) : Chars :=
  match chunks with
  | [] => []
  | c :: rest => c ++ (rest.map (fun k => k.drop chunkOverlap)).flatten

/-!
### Vector store

A stored point carries the payload fields the filters of this repository
match on (`metadata.userId`, `metadata.documentId`, `metadata.contentType`),
its text, and the relevance score the external ANN reports for the query at
hand (`none` when the store returns no score, as for LangChain retriever
results). Quantifying over stores with arbitrary scores models the external
similarity ranking, which is outside this code.
-/

/-- A stored chunk as the search/scroll operations see it. -/
structure ScoredDoc where
  userId : String
  documentId : String
  contentType : String
  pageContent : Chars
  score : Option ℚ
deriving DecidableEq, Repr

/-- The payload keys the code filters on: `metadata.userId`,
`metadata.documentId`, `metadata.contentType`. -/
inductive FieldKey where
  | userId
  | documentId
  | contentType
deriving DecidableEq, Repr

/-- One `{ key, match: { value } }` condition of a Qdrant filter. -/
structure MatchCond where
  key : FieldKey
  value : String
deriving DecidableEq, Repr

/-- A Qdrant filter as this repository builds them: a `must` list of keyword
match conditions. -/
structure QFilter where
  must : List MatchCond
deriving DecidableEq, Repr

/-- Field lookup for condition matching. -/
def fieldValue (d : ScoredDoc) : FieldKey → String
  | .userId => d.userId
  | .documentId => d.documentId
  | .contentType => d.contentType

/-- A point satisfies a match condition iff the keyed field equals the value. -/
def condHolds (d : ScoredDoc) (c : MatchCond) : Bool :=
  fieldValue d c.key == c.value

/-- A point satisfies a filter iff it satisfies every `must` condition. -/
def filterHolds (f : QFilter) (d : ScoredDoc) : Bool :=
  f.must.all (condHolds d)

/-- An optional filter: `none` (no filter supplied) restricts nothing. -/
def optFilterHolds : Option QFilter → ScoredDoc → Bool
  | none, _ => true
  | some f, d => filterHolds f d

/-- The external vector database search (spec section 6 collaborator
interface): returns up to `k` points satisfying the filter, in the store
order standing in for descending relevance. -/
def qdrantSearch (store : List ScoredDoc) (f : Option QFilter) (k : Nat) : List ScoredDoc :=
  (store.filter (optFilterHolds f)).take k

/-- The external vector database scroll: up to `limit` points satisfying the
filter. -/
def qdrantScroll (store : List ScoredDoc) (f : QFilter) (limit : Nat) : List ScoredDoc :=
  (store.filter (filterHolds f)).take limit

/-- The external vector database delete-by-filter: removes every point
satisfying the filter; removing none is not an error. -/
def qdrantDeleteByFilter (store : List ScoredDoc) (f : QFilter) : List ScoredDoc :=
  store.filter (fun d => !filterHolds f d)

/-!
### `qdrant.ts`: `deleteUserDocuments`
-/

/-- The filter `deleteUserDocuments` builds: both `metadata.userId` and
`metadata.documentId` when a document id is given, else `metadata.userId`
alone. -/
def deleteFilter (userId : String) (documentId : Option String) : QFilter :=
  match documentId with
  | some d => QFilter.mk [MatchCond.mk .userId userId, MatchCond.mk .documentId d]
  | none => QFilter.mk [MatchCond.mk .userId userId]

/-- Result of `deleteUserDocuments`: the store after the delete and the
`{ success: true }` value the function returns. -/
structure DeleteResult where
  store : List ScoredDoc
  success : Bool
deriving DecidableEq, Repr

/-- `deleteUserDocuments` of `qdrant.ts`. -/
def deleteUserDocuments (store : List ScoredDoc) (userId : String)
    (documentId : Option String) : DeleteResult :=
  DeleteResult.mk (qdrantDeleteByFilter store (deleteFilter userId documentId)) true

/-!
### `rag-system.ts`: query engine

The generation service is external: the non-streaming path gets its outcome
as `Except String String` (wrapped answer or failure), the streaming path as
the list of truthy content units it yields plus an optional failure after
them. The vector-store interaction may itself fail, hence
`Except String (List ScoredDoc)` for the reachable store contents.
`timestamp` is wall-clock output and is not modelled.
-/

/-- The fixed insufficiency answer of `executeRAGQuery` and the streaming
variant (same string in both). -/
def noRelevantAnswer : String :=
  "I don" ++ aposChar.toString ++
  "t have any relevant information in your uploaded documents to answer this question. Please ask questions related to the documents, notes, or websites you" ++
  aposChar.toString ++ "ve added to your knowledge base."

/-- First insufficiency pattern of the source-suppression post-filter. -/
def insuffPhrase1 : String := "don" ++ aposChar.toString ++ "t have enough information"

/-- Second insufficiency pattern of the source-suppression post-filter. -/
def insuffPhrase2 : String := "don" ++ aposChar.toString ++ "t know"

/-- `answer.toLowerCase().includes(p1) || answer.toLowerCase().includes(p2)`. -/
def answerIndicatesInsufficiency (answer : String) : Bool :=
  containsSub insuffPhrase1.toList (lowerChars answer.toList) ||
  containsSub insuffPhrase2.toList (lowerChars answer.toList)

/-- The score filter of both query paths: drop a document only when it has a
score and that score is below the threshold. -/
def keepByScore (threshold : ℚ) (d : ScoredDoc) : Bool :=
  match d.score with
  | none => true
  | some s => !(decide (s < threshold))

/-- The filter `executeRAGQuery` builds and passes to the retriever:
`must: [{ key: "metadata.userId", match: { value: userId } }]`. -/
def ragUserFilter (userId : String) : QFilter :=
  QFilter.mk [MatchCond.mk .userId userId]

/-- Retrieval plus score-threshold filtering of `executeRAGQuery`: retriever
with `k = maxResults` and the userId filter, then the score filter. -/
def ragFilteredDocs (pts : List ScoredDoc) (userId : String) (maxResults : Nat)
    (threshold : ℚ) : List ScoredDoc :=
  (qdrantSearch pts (some (ragUserFilter userId)) maxResults).filter (keepByScore threshold)

/-- One source entry of the response: the first 200 characters of the chunk
plus an ellipsis, and the chunk metadata when `includeMetadata` (the empty
object `\x7b\x7d` otherwise, modelled as `none`). -/
structure SourceEntry where
  content : Chars
  metadata : Option ScoredDoc
deriving DecidableEq, Repr

/-- `{ content: doc.pageContent.slice(0, 200) + "...", metadata: includeMetadata ? doc.metadata : ... }`. -/
def mkSource (includeMetadata : Bool) (d : ScoredDoc) : SourceEntry :=
  SourceEntry.mk (d.pageContent.take 200 ++ ['.', '.', '.'])
    (if includeMetadata then some d else none)

/-- The `RAGResponse` shape (timestamp omitted, see above). -/
structure RAGResponseM where
  answer : String
  sources : List SourceEntry
  query : String
deriving DecidableEq, Repr

/-- The error message wrapper of the non-streaming catch block. -/
def ragWrapError (e : String) : String := "RAG query failed: " ++ e

deriving instance DecidableEq for Except

/-- Outcome of `executeRAGQuery` plus the number of generation-service
invocations (`chatModel.invoke` calls). -/
structure RAGOutcome where
  result : Except String RAGResponseM
  genCalls : Nat
deriving DecidableEq, Repr

/-- `executeRAGQuery` of `rag-system.ts`. Defaults at the call sites are
`maxResults = 3`, `threshold = 7/10`, `includeMetadata = true`. -/
def executeRAGQuery (searchOutcome : Except String (List ScoredDoc)) (userId : String)
    (question : String) (maxResults : Nat) (threshold : ℚ) (includeMetadata : Bool)
    (genOutcome : Except String String) : RAGOutcome :=
  match searchOutcome with
  | .error e => RAGOutcome.mk (.error (ragWrapError e)) 0
  | .ok pts =>
    let filteredDocs := ragFilteredDocs pts userId maxResults threshold
    if filteredDocs.isEmpty then
      RAGOutcome.mk (.ok (RAGResponseM.mk noRelevantAnswer [] question)) 0
    else
      match genOutcome with
      | .error e => RAGOutcome.mk (.error (ragWrapError e)) 1
      | .ok answer =>
        let shouldIncludeSources :=
          !(answerIndicatesInsufficiency answer) && decide (0 < filteredDocs.length)
        let sources :=
          if shouldIncludeSources then filteredDocs.map (mkSource includeMetadata) else []
        RAGOutcome.mk (.ok (RAGResponseM.mk answer sources question)) 1

/-- Retrieval plus score filtering of `executeRAGQueryStream`. The retriever
is created with `filter: filter || undefined` — the caller-supplied filter,
or no filter at all. The `userId` passed to `getVectorStore` only lands in
the `QdrantVectorStore` constructor options, and `@langchain/qdrant`
`QdrantLibArgs` has no `filter` field, so it does not constrain the search;
the per-call retriever filter is the only one applied. The hard-coded
streaming threshold is `0.7`. -/
def streamFilteredDocs (pts : List ScoredDoc) (callerFilter : Option QFilter)
    (maxResults : Nat) : List ScoredDoc :=
  (qdrantSearch pts callerFilter maxResults).filter (keepByScore (7/10))

/-- `executeRAGQueryStream` of `rag-system.ts`: the list of text units the
generator yields. `genUnits` are the truthy content units of the external
stream; `genError` is a failure occurring after them (anywhere in the `try`
body); the catch block yields a single terminal `"Error: ..."` unit instead
of raising. -/
def executeRAGQueryStream (searchOutcome : Except String (List ScoredDoc))
    (_userId : String) (callerFilter : Option QFilter) (maxResults : Nat)
    (genUnits : List String) (genError : Option String) : List String :=
  match searchOutcome with
  | .error e => ["Error: " ++ e]
  | .ok pts =>
    let filteredDocs := streamFilteredDocs pts callerFilter maxResults
    if filteredDocs.isEmpty then [noRelevantAnswer]
    else
      genUnits ++ (match genError with
        | some e => ["Error: " ++ e]
        | none => [])

/-!
### `document-processor.ts`: `processTextNote`
-/

/-- JavaScript `v || dflt` for an optional string: the default replaces a
missing or empty (falsy) value. -/
def jsStrOr (v : Option String) (dflt : String) : String :=
  match v with
  | none => dflt
  | some t => if t == "" then dflt else t

/-- The parts of a processed note the claims speak about. -/
structure ProcessedNote where
  title : String
  contentType : String
  chunkContents : List Chars
deriving DecidableEq, Repr

/-- `processTextNote` of `document-processor.ts`: `title: title || "User Note"`,
`contentType: "note"`, chunks from the configured splitter. -/
def processTextNote (content : Chars) (title : Option String) : ProcessedNote :=
  ProcessedNote.mk (jsStrOr title "User Note") "note" (splitDocumentIntoChunks content)

/-- Modelled from the spec: the first line of a raw text, for stating the
"truncated first line" title derivation the spec ascribes to the Note
normalizer. -/
def specFirstLine (l : Chars) : Chars := l.takeWhile (fun c => c ≠ nlChar)

/-!
### `websiteloader.ts`: `processWebsiteURL` page budget
-/

/-- A page as returned by the external `RecursiveUrlLoader` crawl. -/
structure CrawledPage where
  source : String
  content : Chars
deriving DecidableEq, Repr

/-- `maxPages ? docs.slice(0, maxPages) : docs` — JavaScript truthiness:
`maxPages = 0` disables the limit. -/
def limitPages (docs : List CrawledPage) (maxPages : Nat) : List CrawledPage :=
  if maxPages ≠ 0 then docs.take maxPages else docs

/-- The page-level behaviour of `processWebsiteURL`: the external loader has
already produced `loadedDocs` (it is configured with `maxDepth`,
`excludeDirs`, `timeout`, `preventOutside` but no page budget); an empty
result is the `"No content could be extracted from the URL"` failure; the
page list is then truncated. The default `maxPages` at the destructuring is
50. -/
def processWebsiteURLPages (loadedDocs : List CrawledPage) (maxPages : Nat) :
    Except String (List CrawledPage) :=
  if loadedDocs.isEmpty then Except.error "No content could be extracted from the URL"
  else Except.ok (limitPages loadedDocs maxPages)

/-!
### `app/api/documents/[id]/route.ts`: DELETE and GET
-/

/-- Hexadecimal digit of the lowercased id. -/
def hexDigit (c : Char) : Bool :=
  ('0' ≤ c && c ≤ '9') || ('a' ≤ c && c ≤ 'f')

/-- The version position of the route regex: character class `[1-5]`. -/
def versionChar (c : Char) : Bool := '1' ≤ c && c ≤ '5'

/-- The variant position of the route regex: character class `[89ab]`. -/
def variantChar (c : Char) : Bool :=
  c == '8' || c == '9' || c == 'a' || c == 'b'

/-- The DELETE route id test, the anchored case-insensitive regex
`[0-9a-f]\x7b8\x7d-[0-9a-f]\x7b4\x7d-[1-5][0-9a-f]\x7b3\x7d-[89ab][0-9a-f]\x7b3\x7d-[0-9a-f]\x7b12\x7d`:
lowercase the id (the `i` flag), split on the dashes, and check the five
group shapes. -/
def docIdRegexTest (s : String) : Bool :=
  match (lowerChars s.toList).splitOn '-' with
  | [g1, g2, g3, g4, g5] =>
    g1.length == 8 && g1.all hexDigit &&
    g2.length == 4 && g2.all hexDigit &&
    (match g3 with
     | c :: r => versionChar c && r.length == 3 && r.all hexDigit
     | [] => false) &&
    (match g4 with
     | c :: r => variantChar c && r.length == 3 && r.all hexDigit
     | [] => false) &&
    g5.length == 12 && g5.all hexDigit
  | _ => false

/-- Modelled from the spec: "UUID-v4 format" — the same shape but with the
version nibble fixed to `4` (RFC 4122 version 4, variant in `\x7b8,9,a,b\x7d`). -/
def specUuidV4Test (s : String) : Bool :=
  match (lowerChars s.toList).splitOn '-' with
  | [g1, g2, g3, g4, g5] =>
    g1.length == 8 && g1.all hexDigit &&
    g2.length == 4 && g2.all hexDigit &&
    (match g3 with
     | c :: r => c == '4' && r.length == 3 && r.all hexDigit
     | [] => false) &&
    (match g4 with
     | c :: r => variantChar c && r.length == 3 && r.all hexDigit
     | [] => false) &&
    g5.length == 12 && g5.all hexDigit
  | _ => false

/-- Outcome of the DELETE `/documents/[id]` route: HTTP status, the store
after the request, and how many storage operations ran. -/
structure DeleteRouteOutcome where
  status : Nat
  store : List ScoredDoc
  storageCalls : Nat
deriving DecidableEq, Repr

/-- The DELETE handler of `app/api/documents/[id]/route.ts`: 401 without an
authenticated user, 400 for a missing or regex-rejected id — both before any
storage call — else `deleteUserDocuments` and a 200 response. -/
def deleteDocumentRoute (store : List ScoredDoc) (authUserId : Option String)
    (documentId : String) : DeleteRouteOutcome :=
  match authUserId with
  | none => DeleteRouteOutcome.mk 401 store 0
  | some userId =>
    if documentId == "" then DeleteRouteOutcome.mk 400 store 0
    else if !(docIdRegexTest documentId) then DeleteRouteOutcome.mk 400 store 0
    else
      DeleteRouteOutcome.mk 200 (deleteUserDocuments store userId (some documentId)).store 1

/-- The filter of the GET handler scroll: `metadata.userId` and
`metadata.documentId`. -/
def getDocFilter (userId documentId : String) : QFilter :=
  QFilter.mk [MatchCond.mk .userId userId, MatchCond.mk .documentId documentId]

/-- Outcome of the GET `/documents/[id]` route: HTTP status, the reported
`chunksCount`, the returned chunk contents, and how many storage operations
ran. -/
structure GetRouteOutcome where
  status : Nat
  chunksCount : Nat
  chunkContents : List Chars
  storageCalls : Nat
deriving DecidableEq, Repr

/-- The GET handler of `app/api/documents/[id]/route.ts`: 401 without a user,
400 only for a missing (empty) id — no format validation — then a scroll
with `limit: 100`; empty result is 404, else 200 with the scrolled chunks. -/
def getDocumentRoute (store : List ScoredDoc) (authUserId : Option String)
    (documentId : String) : GetRouteOutcome :=
  match authUserId with
  | none => GetRouteOutcome.mk 401 0 [] 0
  | some userId =>
    if documentId == "" then GetRouteOutcome.mk 400 0 [] 0
    else
      let results := qdrantScroll store (getDocFilter userId documentId) 100
      if results.isEmpty then GetRouteOutcome.mk 404 0 [] 1
      else GetRouteOutcome.mk 200 results.length (results.map (fun d => d.pageContent)) 1

/-!
### Concrete instances used by the theorems below
-/

/-- A chunk owned by user `bob` (no score, so the threshold filter keeps it). -/
def bobChunk : ScoredDoc :=
  ScoredDoc.mk "bob" "doc-b" "note" ("the launch code is 1234".toList) none

/-- A caller-supplied metadata filter that restricts only the content type. -/
def noteOnlyFilter : QFilter := QFilter.mk [MatchCond.mk .contentType "note"]

/-- A chunk owned by user `alice`. -/
def aliceChunkW : ScoredDoc :=
  ScoredDoc.mk "alice" "doc-a" "note" ("The sky is blue.".toList) none

/-- A raw note whose first line is `Alpha beta`. -/
def noteBodyDemo : Chars := "Alpha beta".toList ++ [nlChar] ++ "Second line".toList

/-- A crawled root page. -/
def homePageW : CrawledPage := CrawledPage.mk "https://example.com/" ("welcome".toList)

/-- A second crawled page. -/
def aboutPageW : CrawledPage := CrawledPage.mk "https://example.com/about" ("about us".toList)

/-- A well-formed UUID of version 1 (not version 4). -/
def uuidV1Demo : String := "aaaaaaaa-aaaa-1aaa-8aaa-aaaaaaaaaaaa"

/-!
### Chunker lemmas
-/

theorem sumLen_nil : sumLen [] = 0 := rfl

theorem sumLen_cons (d : Chars) (l : List Chars) : sumLen (d :: l) = d.length + sumLen l := by
  simp [sumLen]

theorem sumLen_append (l₁ l₂ : List Chars) : sumLen (l₁ ++ l₂) = sumLen l₁ + sumLen l₂ := by
  simp [sumLen]

theorem sumLen_eq_length_flatten (l : List Chars) : sumLen l = l.flatten.length := by
  induction l with
  | nil => rfl
  | cons d rest ih => simp [sumLen_cons, ih]

theorem splitKeepSepAux_flatten (sep : Chars) (l acc : Chars) :
    (splitKeepSepAux sep acc l).flatten = acc.reverse ++ l := by
  induction l generalizing acc with
  | nil => simp [splitKeepSepAux]
  | cons c rest ih =>
    rw [splitKeepSepAux]
    split
    · simp [ih]
    · rw [ih, List.reverse_cons]
      simp

theorem flatten_filter_nonempty (l : List Chars) :
    (l.filter (fun p => !p.isEmpty)).flatten = l.flatten := by
  induction l with
  | nil => rfl
  | cons p rest ih =>
    by_cases hp : p.isEmpty
    · have hpnil : p = [] := List.isEmpty_iff.mp hp
      simp [List.filter_cons, hp, hpnil, ih]
    · simp [List.filter_cons, hp, ih]

theorem flatten_map_singleton (l : Chars) :
    (l.map (fun c => ([c] : Chars))).flatten = l := by
  induction l with
  | nil => rfl
  | cons c rest ih => simp [ih]

theorem splitOnSeparator_flatten (sep text : Chars) :
    (splitOnSeparator sep text).flatten = text := by
  unfold splitOnSeparator
  split
  · rw [flatten_filter_nonempty, flatten_map_singleton]
  · unfold splitKeepSep
    rw [flatten_filter_nonempty, splitKeepSepAux_flatten]
    rfl

theorem length_le_flatten_of_mem (l : List Chars) (p : Chars) (h : p ∈ l) :
    p.length ≤ l.flatten.length := by
  induction l with
  | nil => cases h
  | cons a rest ih =>
    have hflat : ((a :: rest).flatten : Chars) = a ++ rest.flatten := rfl
    rw [hflat, List.length_append]
    rcases List.mem_cons.mp h with h' | h'
    · subst h'
      exact Nat.le_add_right _ _
    · calc p.length ≤ rest.flatten.length := ih h'
        _ ≤ a.length + rest.flatten.length := Nat.le_add_left _ _

theorem mergeStep_nil_noflush (docs cur : List Chars) (total : Nat) (d : Chars)
    (h : total + d.length ≤ chunkSize) :
    mergeStep [] (MergeState.mk docs cur total) d =
      MergeState.mk docs (cur ++ [d]) (total + d.length) := by
  have hcond : ¬ chunkSize < total + d.length := Nat.not_lt.mpr h
  simp [mergeStep, hcond]

theorem mergeFold_small (splits : List Chars) (docs cur : List Chars)
    (h : sumLen cur + sumLen splits ≤ chunkSize) :
    List.foldl (mergeStep []) (MergeState.mk docs cur (sumLen cur)) splits =
      MergeState.mk docs (cur ++ splits) (sumLen cur + sumLen splits) := by
  induction splits generalizing cur with
  | nil => simp [sumLen_nil]
  | cons d rest ih =>
    rw [sumLen_cons] at h
    have hstep := mergeStep_nil_noflush docs cur (sumLen cur) d (by omega)
    rw [List.foldl_cons, hstep]
    have hcur : sumLen cur + d.length = sumLen (cur ++ [d]) := by
      simp [sumLen_append, sumLen_cons, sumLen_nil]
    rw [hcur, ih (cur ++ [d]) (by rw [← hcur]; omega)]
    rw [← hcur]
    simp [List.append_assoc, sumLen_cons, Nat.add_assoc]

theorem mergeSplits_small (splits : List Chars) (h : sumLen splits ≤ chunkSize) :
    mergeSplits splits [] = pushJoined [] splits [] := by
  unfold mergeSplits
  have h0 : (MergeState.mk ([] : List Chars) ([] : List Chars) 0) =
      MergeState.mk [] [] (sumLen []) := rfl
  rw [h0, mergeFold_small splits [] [] (by rw [sumLen_nil]; omega)]
  simp

theorem intercalate_nil_eq_flatten (docs : List Chars) :
    intercalateChars [] docs = docs.flatten := by
  unfold intercalateChars
  induction docs with
  | nil => rfl
  | cons d rest ih =>
    cases rest with
    | nil => simp
    | cons e rest' =>
      simp only [List.intersperse] at ih ⊢
      simp at ih ⊢
      exact ih

theorem buildPieces_small (recFn : Option (Chars → List Chars)) (splits : List Chars)
    (h : ∀ p ∈ splits, p.length < chunkSize) :
    buildPieces recFn splits = splits.map Sum.inl := by
  induction splits with
  | nil => rfl
  | cons p rest ih =>
    have hp : p.length < chunkSize := h p (List.mem_cons_self p rest)
    simp only [buildPieces, List.map_cons]
    rw [if_pos hp, ih (fun q hq => h q (List.mem_cons_of_mem p hq))]

theorem assembleGo_inl (splits good : List Chars) :
    assembleGo good (splits.map Sum.inl) =
      if (good ++ splits).isEmpty then [] else mergeSplits (good ++ splits) [] := by
  induction splits generalizing good with
  | nil => simp [assembleGo]
  | cons s rest ih =>
    rw [List.map_cons, assembleGo, ih]
    simp [List.append_assoc]

theorem processSplits_reconstruct (recFn : Option (Chars → List Chars))
    (splits : List Chars) (T : Chars) (hj : splits.flatten = T) (h0 : T ≠ [])
    (h1 : trimChars T = T) (h2 : T.length < chunkSize) :
    processSplits recFn splits = [T] := by
  have hsmall : ∀ p ∈ splits, p.length < chunkSize := by
    intro p hp
    have := length_le_flatten_of_mem splits p hp
    rw [hj] at this
    omega
  have hne : splits ≠ [] := by
    intro hnil
    rw [hnil] at hj
    exact h0 hj.symm
  unfold processSplits
  rw [buildPieces_small recFn splits hsmall, assembleGo_inl]
  rw [List.nil_append]
  rw [if_neg (by simpa [List.isEmpty_iff] using hne)]
  rw [mergeSplits_small splits (by rw [sumLen_eq_length_flatten, hj]; omega)]
  unfold pushJoined joinDocs
  rw [intercalate_nil_eq_flatten, hj, h1]
  rw [if_neg (by simpa [List.isEmpty_iff] using h0)]
  rfl

theorem splitText_small (T : Chars) (h0 : T ≠ []) (h1 : trimChars T = T)
    (h2 : T.length < chunkSize) : splitText T = [T] := by
  have hcore : ∀ (recFn : Option (Chars → List Chars)) (sep : Chars),
      processSplits recFn (splitOnSeparator sep T) = [T] := by
    intro recFn sep
    exact processSplits_reconstruct recFn _ T (splitOnSeparator_flatten sep T) h0 h1 h2
  unfold splitText splitLevel1 splitLevel2 splitLevel3
  split
  · exact hcore _ _
  · split
    · exact hcore _ _
    · split
      · exact hcore _ _
      · exact hcore _ _

theorem qdrantDeleteByFilter_idem (store : List ScoredDoc) (f : QFilter) :
    qdrantDeleteByFilter (qdrantDeleteByFilter store f) f = qdrantDeleteByFilter store f := by
  unfold qdrantDeleteByFilter
  rw [List.filter_eq_self]
  intro a ha
  exact (List.mem_filter.mp ha).2

/-!
### Claim theorems
-/

/-- C1 (code bug, violation exhibited): the streaming query path feeds
a chunk of another user into the query of user `alice`. The retrieval step of
`executeRAGQueryStream` applies only the caller-supplied filter (or none);
it never adds the `metadata.userId` condition, so with the store holding
only a chunk owned by `bob`, the retrieval for `alice` returns that chunk —
with a content-type-only caller filter and equally with no filter — and the
stream proceeds to generation over the content of `bob` instead of refusing. -/
theorem C1_stream_cross_user_leak :
    bobChunk.userId = "bob" ∧ ("bob" : String) ≠ "alice" ∧
    streamFilteredDocs [bobChunk] (some noteOnlyFilter) 3 = [bobChunk] ∧
    streamFilteredDocs [bobChunk] none 3 = [bobChunk] ∧
    executeRAGQueryStream (.ok [bobChunk]) "alice" (some noteOnlyFilter) 3
      ["generated answer"] none = ["generated answer"] :=
  ⟨rfl, by decide, by decide, by decide, by decide⟩

/-- C2 (confirmed): when retrieval plus score-threshold filtering leaves no
document, `executeRAGQuery` returns the fixed insufficiency answer with an
empty sources list, and the generation service is not invoked (zero
generation calls). -/
theorem C2_grounding_refusal (pts : List ScoredDoc) (userId question : String)
    (maxResults : Nat) (threshold : ℚ) (includeMetadata : Bool)
    (gen : Except String String)
    (h : ragFilteredDocs pts userId maxResults threshold = []) :
    executeRAGQuery (.ok pts) userId question maxResults threshold includeMetadata gen =
      RAGOutcome.mk (.ok (RAGResponseM.mk noRelevantAnswer [] question)) 0 := by
  simp [executeRAGQuery, h]

/-- Witness for C2 at a concrete empty store. -/
theorem C2_grounding_refusal_witness :
    ragFilteredDocs [] "u1" 3 0 = [] ∧
    executeRAGQuery (.ok []) "u1" "q" 3 0 true (.ok "ignored") =
      RAGOutcome.mk (.ok (RAGResponseM.mk noRelevantAnswer [] "q")) 0 :=
  ⟨by decide, C2_grounding_refusal [] "u1" "q" 3 0 true (.ok "ignored") (by decide)⟩

/-- C3 counterexample: for the input text `"hi "` the configured splitter
returns the single chunk `"hi"` (the merge step trims each chunk), so
concatenating the chunks with declared-overlap removal yields `"hi"`, not
the original text — the round-trip is not exact for every non-empty input. -/
theorem C3_roundtrip_counterexample :
    splitDocumentIntoChunks ['h', 'i', ' '] = [['h', 'i']] ∧
    specReconstruct (splitDocumentIntoChunks ['h', 'i', ' ']) ≠ ['h', 'i', ' '] :=
  ⟨by decide, by decide⟩

/-- C3 (amended): exact reconstruction fails in general because each emitted
chunk is trimmed of surrounding whitespace and the realised overlap is made
of whole splits rather than exactly 100 characters; for non-empty text with
no leading or trailing whitespace and length below the chunk size, the
splitter returns the text itself as the single chunk and the reconstruction
is exact. -/
theorem C3_roundtrip_trimmed_small (T : Chars) (h0 : T ≠ [])
    (h1 : trimChars T = T) (h2 : T.length < chunkSize) :
    splitDocumentIntoChunks T = [T] ∧
    specReconstruct (splitDocumentIntoChunks T) = T := by
  have h := splitText_small T h0 h1 h2
  have h' : splitDocumentIntoChunks T = [T] := h
  refine ⟨h', ?_⟩
  rw [h']
  simp [specReconstruct]

/-- Witness for C3 at the concrete text `"ab"`. -/
theorem C3_roundtrip_trimmed_small_witness :
    ((['a', 'b'] : Chars) ≠ [] ∧ trimChars ['a', 'b'] = ['a', 'b'] ∧
      (['a', 'b'] : Chars).length < chunkSize) ∧
    (splitDocumentIntoChunks ['a', 'b'] = [['a', 'b']] ∧
      specReconstruct (splitDocumentIntoChunks ['a', 'b']) = ['a', 'b']) :=
  ⟨⟨by decide, by decide, by decide⟩,
    C3_roundtrip_trimmed_small ['a', 'b'] (by decide) (by decide) (by decide)⟩

/-- C4 (confirmed): `deleteUserDocuments` reports success, removes every
chunk matching both the owner id and the document id, and a second identical
call is a no-op that also succeeds — deleting a non-existent document is not
an error. -/
theorem C4_idempotent_delete (store : List ScoredDoc) (u d : String) :
    (deleteUserDocuments store u (some d)).success = true ∧
    ((deleteUserDocuments store u (some d)).store.filter
        (fun x => x.userId == u && x.documentId == d)).length = 0 ∧
    deleteUserDocuments (deleteUserDocuments store u (some d)).store u (some d) =
      DeleteResult.mk (deleteUserDocuments store u (some d)).store true := by
  have hpred : ∀ x : ScoredDoc,
      filterHolds (deleteFilter u (some d)) x = (x.userId == u && x.documentId == d) := by
    intro x
    simp [filterHolds, deleteFilter, condHolds, fieldValue]
  refine ⟨rfl, ?_, ?_⟩
  · rw [List.length_eq_zero, List.filter_eq_nil_iff]
    intro x hx
    have hx' : x ∈ List.filter (fun z => !filterHolds (deleteFilter u (some d)) z) store := hx
    have hmem := List.of_mem_filter hx'
    rw [← hpred x]
    simp only [Bool.not_eq_true] at hmem ⊢
    simpa using hmem
  · show DeleteResult.mk
        (qdrantDeleteByFilter (qdrantDeleteByFilter store (deleteFilter u (some d)))
          (deleteFilter u (some d))) true =
      DeleteResult.mk (qdrantDeleteByFilter store (deleteFilter u (some d))) true
    rw [qdrantDeleteByFilter_idem]

/-- C5 counterexample: `maxPages ? docs.slice(0, maxPages) : docs` uses
JavaScript truthiness, so `maxPages = 0` disables the limit entirely and the
crawler output can exceed `N = 0` pages, contradicting the universally
quantified budget. -/
theorem C5_maxpages_zero_counterexample :
    processWebsiteURLPages [homePageW] 0 = Except.ok [homePageW] ∧
    ¬ (([homePageW] : List CrawledPage).length ≤ 0) :=
  ⟨by decide, by decide⟩

/-- C5 (amended): for every truthy budget `N ≥ 1` the output of
`processWebsiteURLPages` contains at most `N` pages; the budget is applied
by truncating the fully crawled page list after `loader.load()` returns (the
loader is configured without any page budget), not by stopping traversal
early, and `maxPages = 0` disables the limit. -/
theorem C5_crawl_budget (docs : List CrawledPage) (maxPages : Nat)
    (pages : List CrawledPage) (h1 : 1 ≤ maxPages)
    (h2 : processWebsiteURLPages docs maxPages = Except.ok pages) :
    pages.length ≤ maxPages := by
  unfold processWebsiteURLPages at h2
  split at h2
  · cases h2
  · rw [Except.ok.injEq] at h2
    subst h2
    unfold limitPages
    rw [if_pos (by omega)]
    exact List.length_take_le maxPages docs

/-- Witness for C5 at a two-page crawl with budget 1. -/
theorem C5_crawl_budget_witness :
    (1 ≤ 1 ∧
      processWebsiteURLPages [homePageW, aboutPageW] 1 = Except.ok [homePageW]) ∧
    ([homePageW] : List CrawledPage).length ≤ 1 :=
  ⟨⟨by decide, by decide⟩,
    C5_crawl_budget [homePageW, aboutPageW] 1 [homePageW] (by decide) (by decide)⟩

/-- C6 (confirmed): when retrieval succeeded (at least one chunk passed the
threshold) and generation returned an answer, the response carries an empty
sources list exactly when the answer pattern-matches an insufficiency phrase
(case-insensitive `insuffPhrase1` or `insuffPhrase2`), and
otherwise one source entry per retained chunk, in order. -/
theorem C6_source_suppression (pts : List ScoredDoc) (userId question answer : String)
    (maxResults : Nat) (threshold : ℚ) (includeMetadata : Bool)
    (h : ragFilteredDocs pts userId maxResults threshold ≠ []) :
    executeRAGQuery (.ok pts) userId question maxResults threshold includeMetadata
        (.ok answer) =
      RAGOutcome.mk (.ok (RAGResponseM.mk answer
        (if answerIndicatesInsufficiency answer then []
         else (ragFilteredDocs pts userId maxResults threshold).map (mkSource includeMetadata))
        question)) 1 := by
  have hne : (ragFilteredDocs pts userId maxResults threshold).isEmpty = false := by
    simpa [List.isEmpty_iff] using h
  have hlen : 0 < (ragFilteredDocs pts userId maxResults threshold).length :=
    List.length_pos.mpr h
  cases hi : answerIndicatesInsufficiency answer <;>
    simp [executeRAGQuery, hne, hi, hlen]

/-- Witness for C6: a retained chunk with a grounded answer keeps its source
entry; the same with an insufficiency answer is covered by the `if`. -/
theorem C6_source_suppression_witness :
    ragFilteredDocs [aliceChunkW] "alice" 3 0 ≠ [] ∧
    executeRAGQuery (.ok [aliceChunkW]) "alice" "q" 3 0 true (.ok "The sky is blue.") =
      RAGOutcome.mk (.ok (RAGResponseM.mk "The sky is blue."
        (if answerIndicatesInsufficiency "The sky is blue." then []
         else (ragFilteredDocs [aliceChunkW] "alice" 3 0).map (mkSource true))
        "q")) 1 :=
  ⟨by decide,
    C6_source_suppression [aliceChunkW] "alice" "q" "The sky is blue." 3 0 true (by decide)⟩

/-- C7 (confirmed): a failing stage makes the non-streaming path surface a
single wrapped `RAG query failed: ...` error (search failure before any
generation call, generation failure after exactly one), while the streaming
path never raises: it yields the units already produced followed by exactly
one terminal `Error: ...` unit carrying the cause, and nothing after it. -/
theorem C7_error_policy (pts : List ScoredDoc) (userId question e : String)
    (maxResults : Nat) (threshold : ℚ) (includeMetadata : Bool)
    (callerFilter : Option QFilter) (genUnits : List String)
    (gen : Except String String) (genErrO : Option String) :
    (executeRAGQuery (.error e) userId question maxResults threshold includeMetadata gen =
        RAGOutcome.mk (.error (ragWrapError e)) 0) ∧
    (ragFilteredDocs pts userId maxResults threshold ≠ [] →
      executeRAGQuery (.ok pts) userId question maxResults threshold includeMetadata
          (.error e) =
        RAGOutcome.mk (.error (ragWrapError e)) 1) ∧
    (executeRAGQueryStream (.error e) userId callerFilter maxResults genUnits genErrO =
        ["Error: " ++ e]) ∧
    (streamFilteredDocs pts callerFilter maxResults ≠ [] →
      executeRAGQueryStream (.ok pts) userId callerFilter maxResults genUnits (some e) =
        genUnits ++ ["Error: " ++ e]) := by
  refine ⟨rfl, ?_, rfl, ?_⟩
  · intro h
    have hne : (ragFilteredDocs pts userId maxResults threshold).isEmpty = false := by
      simpa [List.isEmpty_iff] using h
    simp [executeRAGQuery, hne]
  · intro h
    have hne : (streamFilteredDocs pts callerFilter maxResults).isEmpty = false := by
      simpa [List.isEmpty_iff] using h
    simp [executeRAGQueryStream, hne]

/-- Witness for C7 with a concrete retained chunk and failure cause. -/
theorem C7_error_policy_witness :
    (ragFilteredDocs [aliceChunkW] "alice" 3 0 ≠ [] ∧
      streamFilteredDocs [aliceChunkW] none 3 ≠ []) ∧
    executeRAGQuery (.ok [aliceChunkW]) "alice" "q" 3 0 true (.error "boom") =
      RAGOutcome.mk (.error (ragWrapError "boom")) 1 ∧
    executeRAGQueryStream (.ok [aliceChunkW]) "alice" none 3 ["part"] (some "boom") =
      ["part"] ++ ["Error: " ++ "boom"] := by
  refine ⟨⟨by decide, by decide⟩, ?_, ?_⟩
  · exact (C7_error_policy [aliceChunkW] "alice" "q" "boom" 3 0 true none ["part"]
      (.ok "x") none).2.1 (by decide)
  · exact (C7_error_policy [aliceChunkW] "alice" "q" "boom" 3 0 true none ["part"]
      (.ok "x") none).2.2.2 (by decide)

/-- C8 counterexample: the GET handler performs no id-format validation —
for the malformed id `not-a-uuid` (not UUID-v4) it still runs a storage
scroll and answers 404, not 400; moreover the DELETE regex accepts any RFC
version 1–5, so the version-1 id also reaches storage although it is not
UUID-v4. -/
theorem C8_uuid_validation_counterexample :
    specUuidV4Test "not-a-uuid" = false ∧
    (getDocumentRoute [] (some "u1") "not-a-uuid").storageCalls = 1 ∧
    (getDocumentRoute [] (some "u1") "not-a-uuid").status = 404 ∧
    docIdRegexTest uuidV1Demo = true ∧
    specUuidV4Test uuidV1Demo = false ∧
    (deleteDocumentRoute [] (some "u1") uuidV1Demo).storageCalls = 1 :=
  ⟨by decide, by decide, by decide, by decide, by decide, by decide⟩

/-- C8 (amended): only the DELETE handler validates the id, against a UUID
version-1-to-5 regex (not v4-only): an id failing that regex gets 400 with
the store untouched and no storage call; the GET handler performs no format
validation and touches storage for any non-empty id. -/
theorem C8_delete_id_validation (store : List ScoredDoc) (u id : String)
    (h : docIdRegexTest id = false) :
    deleteDocumentRoute store (some u) id = DeleteRouteOutcome.mk 400 store 0 := by
  unfold deleteDocumentRoute
  cases he : (id == "") <;> simp [he, h]

/-- Witness for C8 at the malformed id `zzz`. -/
theorem C8_delete_id_validation_witness :
    docIdRegexTest "zzz" = false ∧
    deleteDocumentRoute [] (some "u1") "zzz" = DeleteRouteOutcome.mk 400 [] 0 :=
  ⟨by decide, C8_delete_id_validation [] "u1" "zzz" (by decide)⟩

/-- C9 counterexample: for a note without a supplied title whose first line
is `Alpha beta`, the normalizer titles the document with the fixed string
`User Note`, which is not a truncation (prefix) of the first line of the note. -/
theorem C9_title_counterexample :
    (processTextNote noteBodyDemo none).title = "User Note" ∧
    specFirstLine noteBodyDemo = "Alpha beta".toList ∧
    List.isPrefixOf "User Note".toList (specFirstLine noteBodyDemo) = false :=
  ⟨by decide, by decide, by decide⟩

/-- C9 (amended): the Note normalizer sets `contentType` to `note`; a
missing (or empty) title defaults to the fixed string `User Note` — the
truncated-first-line title seen end to end is supplied by the UI caller, not
derived by the normalizer. -/
theorem C9_note_defaults (content : Chars) (title : Option String) :
    (processTextNote content title).contentType = "note" ∧
    (processTextNote content title).title = jsStrOr title "User Note" :=
  ⟨rfl, rfl⟩

/-- C10 (confirmed): the GET document route scrolls with limit 100, so the
reported `chunksCount` is the number of matching chunks capped at 100 and
the returned chunk list has the same capped length — documents with more
than 100 chunks are silently truncated. -/
theorem C10_get_chunk_cap (store : List ScoredDoc) (u d : String) (hd : d ≠ "") :
    (getDocumentRoute store (some u) d).chunksCount =
      min 100 ((store.filter (filterHolds (getDocFilter u d))).length) ∧
    (getDocumentRoute store (some u) d).chunkContents.length =
      (getDocumentRoute store (some u) d).chunksCount := by
  have he : (d == "") = false := by
    simpa using hd
  cases hres : (qdrantScroll store (getDocFilter u d) 100).isEmpty
  · simp only [getDocumentRoute, he, Bool.false_eq_true, if_false, hres]
    constructor
    · show (qdrantScroll store (getDocFilter u d) 100).length = _
      unfold qdrantScroll
      exact (List.length_take 100 _)
    · simp
  · have hnil : qdrantScroll store (getDocFilter u d) 100 = [] :=
      List.isEmpty_iff.mp hres
    simp only [getDocumentRoute, he, Bool.false_eq_true, if_false, hres, if_true]
    constructor
    · unfold qdrantScroll at hnil
      rcases (List.take_eq_nil_iff).mp hnil with h100 | hfil
      · cases h100
      · show (0 : Nat) = _
        rw [hfil]
        simp
    · simp

/-- Witness for C10 at a concrete non-empty id. -/
theorem C10_get_chunk_cap_witness :
    ("doc1" : String) ≠ "" ∧
    ((getDocumentRoute [] (some "u1") "doc1").chunksCount =
        min 100 ((([] : List ScoredDoc).filter (filterHolds (getDocFilter "u1" "doc1"))).length) ∧
      (getDocumentRoute [] (some "u1") "doc1").chunkContents.length =
        (getDocumentRoute [] (some "u1") "doc1").chunksCount) :=
  ⟨by decide, C10_get_chunk_cap [] "u1" "doc1" (by decide)⟩

end RagApp
